import Mathlib

/-!
# Lamp Commander (`src/lampCommander.c`): registry, reconciler, dispatcher

A shallow embedding of the three functions that touch the list of detected
lamps: `manage_msg` (lines 173-242), `cli_menu` (lines 109-168) and
`bulk_request` (lines 61-88).

Modelling conventions.

* The `LIST_HEAD` list `lamps_t` is a Lean `List lamp_t`, head first; the
  iteration order of `LIST_FOREACH` is the order of the list.
* `LIST_FOREACH` with `LIST_REMOVE` + `free` in its body: the loop goes on
  with the `le_next` link of the node it has just unlinked (`LIST_REMOVE`
  leaves that link as it was), so the walk visits every node of the list
  once; a removed node is dropped from the resulting list.
* `time(NULL)` is a parameter `now`, one value for a whole walk. In
  `cli_menu` it is the clock of the listing walk; the toggle walk, which
  runs after the operator has answered the prompt, does not call `time`.
* `time_t` and `int` values are `Int`; the counters `i` and `max` of the
  walks are not wrapped (a registry has far fewer than `2^31` records).
* `cli_menu` takes the values that `scanf("%d", ...)` has stored in the `int`
  variables `menu` and `choice`. The number the operator types and the value
  stored differ when the number does not fit an `int`: `scanf_d` is that
  conversion, as glibc does it.
* What the xAAL library decodes from a message (`xAAL_read_bus`,
  `xAAL_targets_match`, `xAAL_isAliveDevType_match`,
  `xAAL_read_aliveTimeout`) and what its senders return are inputs.
* `malloc`, `realloc` and `strdup` succeed; fresh heap cells hold arbitrary
  values, given by a parameter `junk`.
-/

namespace LampCommander

/-! ## Data model (lines 37-45) -/

/-- One detected lamp: `struct entry` without its list links. -/
structure lamp_t where
  addr : String
  type : String
  selected : Bool
  timeout : Int
  deriving DecidableEq, Repr

/-- The list of detected lamps, `LIST_HEAD(listhead, entry)`. -/
abbrev lamps_t := List lamp_t

/-- The test `np->timeout && (time(NULL) > np->timeout)` of lines 70 and 119. -/
def too_old (now : Int) (np : lamp_t) : Bool :=
  (np.timeout != 0) && decide (now > np.timeout)

/-! ## Observable effects -/

/-- What the program writes to the bus, to `stdout` and to `xAAL_error_log`. -/
inductive out_t where
  /-- The call `xAAL_write_busv(bus, cli, msgType, action, NULL, targets)`. -/
  | write_busv (msgType action : String) (targets : List String)
  /-- The call `xAAL_notify_alive(bus, cli)`. -/
  | notify_alive
  /-- A call `xAAL_reply_<action>(bus, cli, source)`. -/
  | reply (action source : String)
  /-- The line `"Detected lamps:\n"`. -/
  | detected_lamps
  /-- The line `printf("%2d: %c %s %s %s", i, mark, addr, type, ctime(&timeout))`. -/
  | lamp_line (i : Int) (mark : Char) (addr type : String) (timeout : Int)
  /-- The prompt `"Toggle which one? "`. -/
  | toggle_which
  /-- The line `"Sorry, can't find it.\n"`. -/
  | cant_find
  /-- The line `"Sorry.\n"`. -/
  | not_a_number
  /-- The line `"Sorry, %d is not on the menu.\n"`. -/
  | not_on_menu (menu : Int)
  /-- A line on `xAAL_error_log`. -/
  | error_log (s : String)
  /-- The closing `printf(CLI_MENU)`. -/
  | menu_text
  deriving DecidableEq, Repr

/-! ## `manage_msg` (lines 173-242) -/

/-- What `xAAL_read_bus` and the xAAL helpers decode from one received
message: the fields read by `manage_msg`, the results of
`xAAL_targets_match(jtargets, cli->addr)` and of
`xAAL_isAliveDevType_match(jmsg, cli->devType)`, and the value returned by
`xAAL_read_aliveTimeout(jmsg)`. -/
structure msg_t where
  source : String
  msgType : String
  devType : String
  action : String
  targets_match : Bool
  isAliveDevType_match : Bool
  aliveTimeout : Int
  deriving DecidableEq, Repr

/-- The test `(strcmp(msgType, "notify") == 0) && (strcmp(action, "alive") == 0)`
of lines 221 and 232. -/
def is_alive_notify (m : msg_t) : Bool :=
  decide (m.msgType = "notify") && decide (m.action = "alive")

/-- The test `strncmp(devType, "lamp.", strlen("lamp.")) == 0` of line 216. -/
def lamp_talking (m : msg_t) : Bool :=
  List.isPrefixOf "lamp.".toList m.devType.toList

/-- The loop of lines 219-227: the first record whose `addr` is the source
gets a new `timeout`, and the flag `exists` tells whether one was found. -/
def seen_walk (m : msg_t) : lamps_t → lamps_t × Bool
  | [] => ([], false)
  | np :: rest =>
    if np.addr = m.source then
      if is_alive_notify m then
        ({ np with timeout := m.aliveTimeout } :: rest, true)
      else
        ({ np with timeout := 0 } :: rest, true)
    else
      ((np :: (seen_walk m rest).1), (seen_walk m rest).2)

/-- The branch "A lamp is talking" of lines 216-239. -/
def lamp_seen (m : msg_t) (lamps : lamps_t) : lamps_t :=
  if !(seen_walk m lamps).2 then
    { addr := m.source
      type := m.devType
      timeout := if is_alive_notify m then m.aliveTimeout else 0
      selected := false } :: (seen_walk m lamps).1
  else
    (seen_walk m lamps).1

/-- One answer of the responder branch: the call, and the log line when the
call returns false. -/
def answer (call : out_t) (send_ok : Bool) (complaint : String) : List out_t :=
  call :: (if send_ok then [] else [out_t.error_log complaint])

/-- The function `manage_msg`: `rd` is `none` when `xAAL_read_bus` returns
false, `send_ok` is what the reply sender returns. -/
def manage_msg (rd : Option msg_t) (send_ok : Bool) (lamps : lamps_t) :
    lamps_t × List out_t :=
  match rd with
  | none => (lamps, [])
  | some m =>
    if decide (m.msgType = "request") && m.targets_match then
      if decide (m.action = "isAlive") && m.isAliveDevType_match then
        (lamps, answer out_t.notify_alive send_ok "Could not reply to isAlive\n")
      else if m.action = "getDescription" then
        (lamps, answer (out_t.reply "getDescription" m.source) send_ok
          "Could not reply to getDescription\n")
      else if m.action = "getAttributes" then
        (lamps, [])
      else if m.action = "getBusConfig" then
        (lamps, answer (out_t.reply "getBusConfig" m.source) send_ok
          "Could not reply to getBusConfig\n")
      else if m.action = "setBusConfig" then
        (lamps, answer (out_t.reply "setBusConfig" m.source) send_ok
          "Could not reply to setBusConfig\n")
      else if m.action = "getCiphers" then
        (lamps, answer (out_t.reply "getCiphers" m.source) send_ok
          "Could not reply to getCiphers\n")
      else if m.action = "setCiphers" then
        (lamps, answer (out_t.reply "setCiphers" m.source) send_ok
          "Could not reply to setCiphers\n")
      else
        (lamps, [])
    else if lamp_talking m then
      (lamp_seen m lamps, [])
    else
      (lamps, [])

/-! ## `bulk_request` (lines 61-88) -/

/-- Heap cells number `base`, ..., `base + n - 1` of a block as `malloc` or
`realloc` hands them out: not initialised, their contents are `junk`. A cell
is a `char *`; `none` is `NULL`. -/
def fresh_cells (junk : Nat → Option String) (base n : Nat) : List (Option String) :=
  (List.range n).map (fun k => junk (base + k))

/-- The block `realloc(targets, n * sizeof(char *))`: the old cells, cut or
extended to `n` cells. -/
def realloc (junk : Nat → Option String) (targets : List (Option String)) (n : Nat) :
    List (Option String) :=
  (targets ++ fresh_cells junk targets.length (n - targets.length)).take n

/-- The assignment `targets[i] = v`; `none` when cell `i` is outside the block. -/
def store (targets : List (Option String)) (i : Nat) (v : Option String) :
    Option (List (Option String)) :=
  if i < targets.length then some (targets.set i v) else none

/-- The locals `targets`, `i` and `max` of `bulk_request`. -/
structure bulk_st where
  targets : List (Option String)
  i : Nat
  max : Nat
  deriving DecidableEq, Repr

/-- The body of lines 77-81: `targets[i++] = np->addr`, then the block grows
by ten cells when `i == max`. -/
def push_target (junk : Nat → Option String) (np : lamp_t) (st : bulk_st) : Option bulk_st :=
  match store st.targets st.i (some np.addr) with
  | none => none
  | some t =>
    if st.i + 1 = st.max then
      some { targets := realloc junk t (st.max + 10), i := st.i + 1, max := st.max + 10 }
    else
      some { targets := t, i := st.i + 1, max := st.max }

/-- The loop of lines 69-82: the records left in the list, and the locals
after the walk; `none` when a write falls outside the block. -/
def bulk_walk (junk : Nat → Option String) (now : Int) :
    lamps_t → bulk_st → Option (lamps_t × bulk_st)
  | [], st => some ([], st)
  | np :: rest, st =>
    if too_old now np then
      bulk_walk junk now rest st
    else if np.selected then
      match push_target junk np st with
      | none => none
      | some st1 =>
        match bulk_walk junk now rest st1 with
        | none => none
        | some (l, st2) => some (np :: l, st2)
    else
      match bulk_walk junk now rest st with
      | none => none
      | some (l, st2) => some (np :: l, st2)

/-- The locals at line 68: `i = 0`, `max = 10`, `targets = malloc(max * ...)`. -/
def bulk_init (junk : Nat → Option String) : bulk_st :=
  { targets := fresh_cells junk 0 10, i := 0, max := 10 }

/-- The targets `xAAL_write_busv` finds in a `NULL`-terminated block; `none`
when the block has no `NULL` cell. -/
def read_targets : List (Option String) → Option (List String)
  | [] => none
  | none :: _ => some []
  | some a :: rest =>
    match read_targets rest with
    | none => none
    | some l => some (a :: l)

/-- The function `bulk_request`: the list left behind, what was sent, and the
returned flag `r`, which is `busv_ok`, the result of `xAAL_write_busv`. -/
def bulk_request (junk : Nat → Option String) (now : Int) (busv_ok : Bool)
    (lamps : lamps_t) (action : String) : Option (lamps_t × List out_t × Bool) :=
  match bulk_walk junk now lamps (bulk_init junk) with
  | none => none
  | some (l, st) =>
    match store st.targets st.i none with
    | none => none
    | some t =>
      match read_targets t with
      | none => none
      | some ts => some (l, [out_t.write_busv "request" action ts], busv_ok)

/-! ## `cli_menu` (lines 109-168) -/

/-- The loop of lines 118-127, entered with the counter at `i`: the records
left in the list, the lines printed, and the counter after the walk. -/
def list_walk (now : Int) : lamps_t → Int → lamps_t × List out_t × Int
  | [], i => ([], [], i)
  | np :: rest, i =>
    if too_old now np then
      list_walk now rest i
    else
      (np :: (list_walk now rest (i + 1)).1,
       out_t.lamp_line i (if np.selected then '*' else ' ') np.addr np.type np.timeout
         :: (list_walk now rest (i + 1)).2.1,
       (list_walk now rest (i + 1)).2.2)

/-- The loop of lines 134-139, entered with the counter at `i`: the list
after the walk and the flag `yes`. -/
def toggle_walk (choice : Int) : lamps_t → Int → lamps_t × Bool
  | [], _ => ([], false)
  | np :: rest, i =>
    if choice = i then
      ({ np with selected := !np.selected } :: rest, true)
    else
      (np :: (toggle_walk choice rest (i + 1)).1, (toggle_walk choice rest (i + 1)).2)

/-- The `int` that `scanf("%d", ...)` of glibc stores when the operator types
the number `n`: the digits are converted by `strtol`, which saturates at
`LONG_MIN` and `LONG_MAX` (64 bits), and the `long` is cut to the 32 bits of
an `int`. A number between `INT_MIN` and `INT_MAX` is stored as it is. -/
def scanf_d (n : Int) : Int :=
  ((if n < -9223372036854775808 then -9223372036854775808
    else if 9223372036854775807 < n then 9223372036854775807
    else n) + 2147483648) % 4294967296 - 2147483648

/-- The values of the `int` variables `menu` and `choice` after the two
`scanf("%d", ...)` of `cli_menu`: `none` when `scanf` does not return 1, and
`some (scanf_d n)` when the operator has typed the number `n`. `choice` is
read only at the toggle prompt. The fields are `Int`: a value outside the
range of `int` is never stored. -/
structure stdin_t where
  menu : Option Int
  choice : Option Int
  deriving DecidableEq, Repr

/-- The result of one call of `cli_menu`. -/
structure cli_t where
  lamps : lamps_t
  out : List out_t
  exited : Bool
  deriving DecidableEq, Repr

/-- Menu option 1, lines 116-147. -/
def select_lamps (now : Int) (choice : Option Int) (lamps : lamps_t) : lamps_t × List out_t :=
  let w := list_walk now lamps 0
  if w.2.2 ≠ 0 then
    match choice with
    | some c =>
      let t := toggle_walk c w.1 0
      (t.1, out_t.detected_lamps :: w.2.1 ++ out_t.toggle_which ::
        (if !t.2 then [out_t.cant_find] else []))
    | none =>
      (w.1, out_t.detected_lamps :: w.2.1 ++ [out_t.toggle_which, out_t.not_a_number])
  else
    (w.1, out_t.detected_lamps :: w.2.1)

/-- Menu options 2 and 3, lines 148-155. -/
def send_action (junk : Nat → Option String) (now : Int) (busv_ok : Bool)
    (lamps : lamps_t) (action complaint : String) : Option (lamps_t × List out_t) :=
  match bulk_request junk now busv_ok lamps action with
  | none => none
  | some (l, o, r) => some (l, o ++ (if !r then [out_t.error_log complaint] else []))

/-- The function `cli_menu`; `none` when `bulk_request` writes outside its
block. -/
def cli_menu (junk : Nat → Option String) (now : Int) (busv_ok : Bool)
    (inp : stdin_t) (lamps : lamps_t) : Option cli_t :=
  match inp.menu with
  | some menu =>
    if menu = 1 then
      some { lamps := (select_lamps now inp.choice lamps).1
             out := (select_lamps now inp.choice lamps).2 ++ [out_t.menu_text]
             exited := false }
    else if menu = 2 then
      match send_action junk now busv_ok lamps "on" "Could not send 'on' request\n" with
      | none => none
      | some (l, o) => some { lamps := l, out := o ++ [out_t.menu_text], exited := false }
    else if menu = 3 then
      match send_action junk now busv_ok lamps "off" "Could not send 'off' request\n" with
      | none => none
      | some (l, o) => some { lamps := l, out := o ++ [out_t.menu_text], exited := false }
    else if menu = 4 then
      some { lamps := lamps, out := [], exited := true }
    else
      some { lamps := lamps, out := [out_t.not_on_menu menu, out_t.menu_text], exited := false }
  | none =>
    some { lamps := lamps, out := [out_t.not_a_number, out_t.menu_text], exited := false }

/-! ## The main loop (lines 343-357) -/

/-- One wake-up of the main loop, or one of the registry operations on its
own. -/
inductive op_t where
  /-- The bus is readable: `manage_msg`. -/
  | bus (rd : Option msg_t) (send_ok : Bool)
  /-- The terminal is readable: `cli_menu`. -/
  | user (junk : Nat → Option String) (now : Int) (busv_ok : Bool) (inp : stdin_t)
  /-- The listing walk of menu option 1 alone. -/
  | listing (now : Int)
  /-- The toggle walk of menu option 1 alone. -/
  | toggle (choice : Int)
  /-- A call of `bulk_request` with any action. -/
  | bulk (junk : Nat → Option String) (now : Int) (busv_ok : Bool) (action : String)

/-- The list of lamps after one operation; `none` when the operation writes
outside a block. -/
def op_t.apply (lamps : lamps_t) : op_t → Option lamps_t
  | .bus rd send_ok => some (manage_msg rd send_ok lamps).1
  | .user junk now busv_ok inp =>
    match cli_menu junk now busv_ok inp lamps with
    | none => none
    | some r => some r.lamps
  | .listing now => some (list_walk now lamps 0).1
  | .toggle choice => some (toggle_walk choice lamps 0).1
  | .bulk junk now busv_ok action =>
    match bulk_request junk now busv_ok lamps action with
    | none => none
    | some r => some r.1

/-- The list of lamps after a sequence of operations, oldest first. -/
def run : List op_t → lamps_t → Option lamps_t
  | [], lamps => some lamps
  | op :: ops, lamps =>
    match op.apply lamps with
    | none => none
    | some l => run ops l

/-! ## The scenario of the specification -/

/-- An alive notification of lamp `A` whose deadline is 120: received at time
0 with a liveness window of 120 seconds. -/
def alive_A : msg_t :=
  { source := "A", msgType := "notify", devType := "lamp.basic", action := "alive",
    targets_match := false, isAliveDevType_match := false, aliveTimeout := 120 }

/-- An alive notification of lamp `B` whose deadline is 1: received at time 0
with a liveness window of 1 second. -/
def alive_B : msg_t :=
  { source := "B", msgType := "notify", devType := "lamp.basic", action := "alive",
    targets_match := false, isAliveDevType_match := false, aliveTimeout := 1 }

/-! ## Lemmas on the walks -/

theorem not_too_old (now : Int) (np : lamp_t) :
    (!too_old now np) = decide (np.timeout = 0 ∨ now ≤ np.timeout) := by
  unfold too_old
  by_cases h0 : np.timeout = 0 <;> by_cases h1 : now ≤ np.timeout <;> simp [h0, h1]
  omega

theorem list_walk_lamps (now : Int) (l : lamps_t) (i : Int) :
    (list_walk now l i).1 = l.filter (fun np => decide (np.timeout = 0 ∨ now ≤ np.timeout)) := by
  induction l generalizing i with
  | nil => rfl
  | cons np rest ih =>
    have h := not_too_old now np
    by_cases ho : too_old now np = true
    · simp only [ho, Bool.not_true] at h
      simp only [list_walk, ho, if_true, ih, List.filter_cons, ← h]
      simp
    · simp only [Bool.not_eq_true] at ho
      simp only [ho, Bool.not_false] at h
      simp only [list_walk, ho, ih, List.filter_cons, ← h]
      simp

theorem list_walk_count (now : Int) (l : lamps_t) (i : Int) :
    (list_walk now l i).2.2 = i + ((list_walk now l i).1.length : Int) := by
  induction l generalizing i with
  | nil => simp [list_walk]
  | cons np rest ih =>
    by_cases ho : too_old now np = true
    · simp only [list_walk, ho, if_true, ih]
    · simp only [Bool.not_eq_true] at ho
      simp only [list_walk, ho, ih (i + 1), List.length_cons]
      simp
      omega

/-- Every line printed by the listing walk is the snapshot of the record at
that position (counted from the start value of the counter) of the list the
walk leaves behind. -/
theorem list_walk_line (now : Int) (l : lamps_t) (i k : Int) (mark : Char)
    (a ty : String) (t : Int)
    (h : out_t.lamp_line k mark a ty t ∈ (list_walk now l i).2.1) :
    ∃ n : Nat, k = i + (n : Int) ∧ ∃ np, (list_walk now l i).1[n]? = some np ∧
      np.addr = a ∧ np.type = ty ∧ np.timeout = t ∧
      mark = (if np.selected then '*' else ' ') := by
  induction l generalizing i with
  | nil => simp [list_walk] at h
  | cons np rest ih =>
    by_cases ho : too_old now np = true
    · simp only [list_walk, ho, if_true] at h ⊢
      exact ih i h
    · simp only [Bool.not_eq_true] at ho
      simp only [list_walk, ho, Bool.false_eq_true, if_false, List.mem_cons] at h ⊢
      rcases h with h | h
      · simp only [out_t.lamp_line.injEq] at h
        obtain ⟨h1, h2, h3, h4, h5⟩ := h
        exact ⟨0, by simp [h1], np, by simp, h3.symm, h4.symm, h5.symm, h2⟩
      · obtain ⟨n, hk, r, hr, hrest⟩ := ih (i + 1) h
        refine ⟨n + 1, ?_, r, ?_, hrest⟩
        · rw [hk]
          push_cast
          ring
        · simpa using hr

/-- Only printed lines are lamp lines: no other kind of output comes out of
the listing walk. -/
theorem list_walk_only_lines (now : Int) (l : lamps_t) (i : Int) (o : out_t)
    (h : o ∈ (list_walk now l i).2.1) :
    ∃ k mark a ty t, o = out_t.lamp_line k mark a ty t := by
  induction l generalizing i with
  | nil => simp [list_walk] at h
  | cons np rest ih =>
    by_cases ho : too_old now np = true
    · simp only [list_walk, ho, if_true] at h
      exact ih i h
    · simp only [Bool.not_eq_true] at ho
      simp only [list_walk, ho, Bool.false_eq_true, if_false, List.mem_cons] at h
      rcases h with h | h
      · exact ⟨_, _, _, _, _, h⟩
      · exact ih (i + 1) h

theorem toggle_walk_length (c : Int) (l : lamps_t) (i : Int) :
    (toggle_walk c l i).1.length = l.length := by
  induction l generalizing i with
  | nil => rfl
  | cons np rest ih =>
    by_cases hc : c = i
    · simp [toggle_walk, hc]
    · simp [toggle_walk, hc, ih]

theorem toggle_walk_yes (c : Int) (l : lamps_t) (i : Int) :
    (toggle_walk c l i).2 = true ↔ i ≤ c ∧ c < i + (l.length : Int) := by
  induction l generalizing i with
  | nil =>
    simp [toggle_walk]
  | cons np rest ih =>
    by_cases hc : c = i
    · simp only [toggle_walk, hc, if_true, List.length_cons]
      simp
    · simp only [toggle_walk, hc, if_false, ih, List.length_cons]
      push_cast
      omega

theorem toggle_walk_get (c : Int) (l : lamps_t) (i : Int) (n : Nat) :
    (toggle_walk c l i).1[n]? =
      if c = i + (n : Int) then l[n]?.map (fun np => { np with selected := !np.selected })
      else l[n]? := by
  induction l generalizing i n with
  | nil => simp [toggle_walk]
  | cons np rest ih =>
    by_cases hc : c = i
    · cases n with
      | zero => simp [toggle_walk, hc]
      | succ m =>
        have : ¬ (i = i + ((m : Int) + 1)) := by omega
        simp [toggle_walk, hc, this]
    · cases n with
      | zero => simp [toggle_walk, hc]
      | succ m =>
        have e : i + ((m + 1 : Nat) : Int) = i + 1 + (m : Int) := by push_cast; ring
        simp only [toggle_walk, hc, if_false, List.getElem?_cons_succ, ih, e]

theorem toggle_walk_no (c : Int) (l : lamps_t) (i : Int)
    (h : (toggle_walk c l i).2 = false) : (toggle_walk c l i).1 = l := by
  induction l generalizing i with
  | nil => rfl
  | cons np rest ih =>
    by_cases hc : c = i
    · simp [toggle_walk, hc] at h
    · simp only [toggle_walk, hc, if_false] at h ⊢
      rw [ih (i + 1) h]

theorem toggle_walk_addrs (c : Int) (l : lamps_t) (i : Int) :
    (toggle_walk c l i).1.map (fun np => (np.addr, np.type, np.timeout)) =
      l.map (fun np => (np.addr, np.type, np.timeout)) := by
  induction l generalizing i with
  | nil => rfl
  | cons np rest ih =>
    by_cases hc : c = i
    · simp [toggle_walk, hc]
    · simp [toggle_walk, hc, ih]

theorem seen_walk_found (m : msg_t) (l : lamps_t) :
    (seen_walk m l).2 = true ↔ m.source ∈ l.map (fun np => np.addr) := by
  induction l with
  | nil => simp [seen_walk]
  | cons np rest ih =>
    by_cases ha : np.addr = m.source
    · by_cases hn : is_alive_notify m = true <;> simp [seen_walk, ha, hn]
    · have ha2 : ¬ m.source = np.addr := fun e => ha e.symm
      simp only [seen_walk, ha, if_false, ih, List.map_cons, List.mem_cons, ha2, false_or]

theorem seen_walk_frame (m : msg_t) (l : lamps_t) :
    (seen_walk m l).1.map (fun np => (np.addr, np.type, np.selected)) =
      l.map (fun np => (np.addr, np.type, np.selected)) := by
  induction l with
  | nil => rfl
  | cons np rest ih =>
    by_cases ha : np.addr = m.source
    · by_cases hn : is_alive_notify m = true <;> simp [seen_walk, ha, hn]
    · simp only [seen_walk, ha, if_false, List.map_cons, ih]

theorem seen_walk_addrs (m : msg_t) (l : lamps_t) :
    (seen_walk m l).1.map (fun np => np.addr) = l.map (fun np => np.addr) := by
  have h := congrArg (List.map (fun p : String × String × Bool => p.1)) (seen_walk_frame m l)
  simpa [List.map_map] using h

theorem seen_walk_other (m : msg_t) (l : lamps_t) (k : Nat) (np : lamp_t)
    (hk : l[k]? = some np) (hne : np.addr ≠ m.source) :
    (seen_walk m l).1[k]? = some np := by
  induction l generalizing k with
  | nil => simp at hk
  | cons hd rest ih =>
    by_cases ha : hd.addr = m.source
    · cases k with
      | zero =>
        simp only [List.getElem?_cons_zero, Option.some.injEq] at hk
        exact absurd (hk ▸ ha) hne
      | succ j =>
        by_cases hn : is_alive_notify m = true <;> simpa [seen_walk, ha, hn] using hk
    · cases k with
      | zero => simpa [seen_walk, ha] using hk
      | succ j =>
        simp only [List.getElem?_cons_succ] at hk
        simpa [seen_walk, ha] using ih j hk

theorem is_alive_notify_iff (m : msg_t) :
    is_alive_notify m = true ↔ m.msgType = "notify" ∧ m.action = "alive" := by
  simp [is_alive_notify]

theorem seen_walk_find (m : msg_t) (l : lamps_t)
    (h : m.source ∈ l.map (fun np => np.addr)) :
    ((seen_walk m l).1.find? (fun np => decide (np.addr = m.source))).map (fun np => np.timeout) =
      some (if m.msgType = "notify" ∧ m.action = "alive" then m.aliveTimeout else 0) := by
  induction l with
  | nil => simp at h
  | cons np rest ih =>
    by_cases ha : np.addr = m.source
    · by_cases hn : is_alive_notify m = true
      · have hn2 := (is_alive_notify_iff m).1 hn
        simp [seen_walk, ha, hn, hn2]
      · have hn2 : ¬ (m.msgType = "notify" ∧ m.action = "alive") :=
          fun e => hn ((is_alive_notify_iff m).2 e)
        simp only [Bool.not_eq_true] at hn
        simp [seen_walk, ha, hn, hn2]
    · have ha2 : ¬ m.source = np.addr := fun e => ha e.symm
      simp only [List.map_cons, List.mem_cons, ha2, false_or] at h
      simp only [seen_walk, ha, if_false, List.find?_cons, decide_False]
      exact ih h

theorem lamp_seen_find (m : msg_t) (l : lamps_t) :
    ((lamp_seen m l).find? (fun np => decide (np.addr = m.source))).map (fun np => np.timeout) =
      some (if m.msgType = "notify" ∧ m.action = "alive" then m.aliveTimeout else 0) := by
  by_cases hf : (seen_walk m l).2 = true
  · have := seen_walk_find m l ((seen_walk_found m l).1 hf)
    simpa [lamp_seen, hf] using this
  · simp only [Bool.not_eq_true] at hf
    by_cases hn : is_alive_notify m = true
    · have hn2 := (is_alive_notify_iff m).1 hn
      simp [lamp_seen, hf, hn, hn2]
    · have hn2 : ¬ (m.msgType = "notify" ∧ m.action = "alive") :=
        fun e => hn ((is_alive_notify_iff m).2 e)
      simp only [Bool.not_eq_true] at hn
      simp [lamp_seen, hf, hn, hn2]

theorem lamp_seen_nodup (m : msg_t) (l : lamps_t)
    (h : (l.map (fun np => np.addr)).Nodup) :
    ((lamp_seen m l).map (fun np => np.addr)).Nodup := by
  by_cases hf : (seen_walk m l).2 = true
  · simp only [lamp_seen, hf, Bool.not_true, Bool.false_eq_true, if_false, seen_walk_addrs]
    exact h
  · have hnot : m.source ∉ l.map (fun np => np.addr) := fun e => hf ((seen_walk_found m l).2 e)
    simp only [Bool.not_eq_true] at hf
    simp only [lamp_seen, hf, Bool.not_false, if_true, List.map_cons, seen_walk_addrs]
    exact List.nodup_cons.2 ⟨hnot, h⟩

/-- The list `manage_msg` leaves behind is the list it was given, or that of
the lamp branch. -/
theorem manage_msg_lamps (rd : Option msg_t) (send_ok : Bool) (l : lamps_t) :
    (manage_msg rd send_ok l).1 = l ∨
      ∃ m, rd = some m ∧ (manage_msg rd send_ok l).1 = lamp_seen m l := by
  cases rd with
  | none => exact Or.inl rfl
  | some m =>
    unfold manage_msg
    simp only
    split_ifs <;> first | exact Or.inl rfl | exact Or.inr ⟨m, rfl, rfl⟩

/-- The lamp branch is taken by a message that is not a request for this
device and whose device type starts with `lamp.`. -/
theorem manage_msg_lamp (m : msg_t) (send_ok : Bool) (l : lamps_t)
    (hreq : ¬ (m.msgType = "request" ∧ m.targets_match = true))
    (hlamp : lamp_talking m = true) :
    manage_msg (some m) send_ok l = (lamp_seen m l, []) := by
  have h1 : (decide (m.msgType = "request") && m.targets_match) = false := by
    by_cases a : m.msgType = "request" <;> by_cases b : m.targets_match = true <;>
      simp_all
  simp [manage_msg, h1, hlamp]

theorem fresh_cells_length (junk : Nat → Option String) (base n : Nat) :
    (fresh_cells junk base n).length = n := by
  simp [fresh_cells]

theorem realloc_length (junk : Nat → Option String) (t : List (Option String)) (n : Nat)
    (h : t.length ≤ n) : (realloc junk t n).length = n := by
  simp only [realloc, List.length_take, List.length_append, fresh_cells_length]
  omega

theorem realloc_take (junk : Nat → Option String) (t : List (Option String)) (n k : Nat)
    (hk : k ≤ t.length) (hn : t.length ≤ n) : (realloc junk t n).take k = t.take k := by
  simp only [realloc, List.take_take]
  rw [Nat.min_eq_left (Nat.le_trans hk hn), List.take_append_of_le_length hk]

theorem take_succ_set (t : List (Option String)) (i : Nat) (v : Option String)
    (h : i < t.length) : (t.set i v).take (i + 1) = t.take i ++ [v] := by
  rw [List.set_eq_take_append_cons_drop, if_pos h]
  have hl : (t.take i).length = i := List.length_take_of_le (Nat.le_of_lt h)
  rw [List.take_append_eq_append_take, hl]
  simp [List.take_of_length_le, hl]

/-- One `targets[i++] = np->addr` with the growth test: inside the block, and
the three facts that hold of the locals before it hold after it. -/
theorem push_target_spec (junk : Nat → Option String) (np : lamp_t) (st : bulk_st)
    (hlen : st.targets.length = st.max) (hi : st.i < st.max)
    (hmax : st.max = 10 * (st.i / 10 + 1)) :
    ∃ st1, push_target junk np st = some st1 ∧ st1.targets.length = st1.max ∧
      st1.i < st1.max ∧ st1.max = 10 * (st1.i / 10 + 1) ∧ st1.i = st.i + 1 ∧
      st1.targets.take st1.i = st.targets.take st.i ++ [some np.addr] := by
  have hlt : st.i < st.targets.length := by omega
  have hset : (st.targets.set st.i (some np.addr)).length = st.max := by simp [hlen]
  by_cases hg : st.i + 1 = st.max
  · have e : push_target junk np st = some
        { targets := realloc junk (st.targets.set st.i (some np.addr)) (st.max + 10)
          i := st.i + 1
          max := st.max + 10 } := by
      simp only [push_target, store, hlt, if_true]
      rw [if_pos hg]
    refine ⟨_, e, ?_, ?_, ?_, rfl, ?_⟩
    · exact realloc_length junk _ _ (by omega)
    · show st.i + 1 < st.max + 10
      omega
    · show st.max + 10 = 10 * ((st.i + 1) / 10 + 1)
      omega
    · show (realloc junk _ (st.max + 10)).take (st.i + 1) = _
      rw [realloc_take junk _ _ _ (by omega) (by omega)]
      exact take_succ_set _ _ _ hlt
  · have e : push_target junk np st = some
        { targets := st.targets.set st.i (some np.addr)
          i := st.i + 1
          max := st.max } := by
      simp only [push_target, store, hlt, if_true]
      rw [if_neg hg]
    refine ⟨_, e, ?_, ?_, ?_, rfl, ?_⟩
    · exact hset
    · show st.i + 1 < st.max
      omega
    · show st.max = 10 * ((st.i + 1) / 10 + 1)
      omega
    · exact take_succ_set _ _ _ hlt

/-- The walk of `bulk_request` from any locals that satisfy the three facts:
it ends, leaves the records that are not too old, and has appended the
addresses of the selected ones among them to the block. -/
theorem bulk_walk_spec (junk : Nat → Option String) (now : Int) (l : lamps_t) (st : bulk_st)
    (hlen : st.targets.length = st.max) (hi : st.i < st.max)
    (hmax : st.max = 10 * (st.i / 10 + 1)) :
    ∃ st2, bulk_walk junk now l st =
        some (l.filter (fun np => decide (np.timeout = 0 ∨ now ≤ np.timeout)), st2) ∧
      st2.targets.length = st2.max ∧ st2.i < st2.max ∧ st2.max = 10 * (st2.i / 10 + 1) ∧
      st2.targets.take st2.i = st.targets.take st.i ++
        (l.filter (fun np => np.selected && decide (np.timeout = 0 ∨ now ≤ np.timeout))).map
          (fun np => some np.addr) := by
  induction l generalizing st with
  | nil => exact ⟨st, rfl, hlen, hi, hmax, by simp⟩
  | cons np rest ih =>
    have h := not_too_old now np
    by_cases ho : too_old now np = true
    · simp only [ho, Bool.not_true] at h
      obtain ⟨st2, h1, h2, h3, h4, h5⟩ := ih st hlen hi hmax
      refine ⟨st2, ?_, h2, h3, h4, ?_⟩
      · simp only [bulk_walk, ho, if_true, h1, List.filter_cons, ← h]
        simp
      · simp only [List.filter_cons, ← h, Bool.and_false]
        simpa using h5
    · simp only [Bool.not_eq_true] at ho
      simp only [ho, Bool.not_false] at h
      by_cases hs : np.selected = true
      · obtain ⟨st1, p1, p2, p3, p4, p5, p6⟩ := push_target_spec junk np st hlen hi hmax
        obtain ⟨st2, h1, h2, h3, h4, h5⟩ := ih st1 p2 p3 p4
        refine ⟨st2, ?_, h2, h3, h4, ?_⟩
        · simp only [bulk_walk, ho, hs, if_true, p1, h1, List.filter_cons, ← h]
          simp
        · simp only [List.filter_cons, ← h, hs, Bool.and_true, if_true, List.map_cons]
          rw [h5, p6]
          simp
      · simp only [Bool.not_eq_true] at hs
        obtain ⟨st2, h1, h2, h3, h4, h5⟩ := ih st hlen hi hmax
        refine ⟨st2, ?_, h2, h3, h4, ?_⟩
        · simp only [bulk_walk, ho, hs, h1, List.filter_cons, ← h]
          simp
        · simp only [List.filter_cons, ← h, hs, Bool.false_and]
          simpa using h5

theorem bulk_init_facts (junk : Nat → Option String) :
    (bulk_init junk).targets.length = (bulk_init junk).max ∧
      (bulk_init junk).i < (bulk_init junk).max ∧
      (bulk_init junk).max = 10 * ((bulk_init junk).i / 10 + 1) := by
  simp [bulk_init, fresh_cells]

theorem read_targets_spec (l : List String) (rest : List (Option String)) :
    read_targets (l.map some ++ none :: rest) = some l := by
  induction l with
  | nil => rfl
  | cons a tl ih => simp [read_targets, ih]

/-- The write `targets[i] = NULL` of line 83 after a walk: inside the block,
and the block then reads as the collected addresses. -/
theorem terminator_spec (t : List (Option String)) (i : Nat) (addrs : List String)
    (hi : i < t.length) (ht : t.take i = addrs.map some) :
    ∃ t1, store t i none = some t1 ∧ t1.length = t.length ∧
      t1.take (i + 1) = addrs.map some ++ [none] ∧ read_targets t1 = some addrs := by
  refine ⟨t.set i none, by simp [store, hi], by simp, ?_, ?_⟩
  · rw [take_succ_set t i none hi, ht]
  · rw [List.set_eq_take_append_cons_drop, if_pos hi, ht]
    exact read_targets_spec addrs _

/-- The whole of `bulk_request` in closed form. -/
theorem bulk_request_spec (junk : Nat → Option String) (now : Int) (busv_ok : Bool)
    (l : lamps_t) (action : String) :
    bulk_request junk now busv_ok l action =
      some (l.filter (fun np => decide (np.timeout = 0 ∨ now ≤ np.timeout)),
        [out_t.write_busv "request" action
          ((l.filter (fun np => np.selected && decide (np.timeout = 0 ∨ now ≤ np.timeout))).map
            (fun np => np.addr))], busv_ok) := by
  obtain ⟨f1, f2, f3⟩ := bulk_init_facts junk
  obtain ⟨st2, h1, h2, h3, _, h5⟩ := bulk_walk_spec junk now l (bulk_init junk) f1 f2 f3
  have h5b : st2.targets.take st2.i =
      ((l.filter (fun np => np.selected && decide (np.timeout = 0 ∨ now ≤ np.timeout))).map
        (fun np => np.addr)).map some := by
    rw [h5]
    simp [bulk_init, List.map_map, Function.comp_def]
  obtain ⟨t1, q1, _, _, q4⟩ := terminator_spec st2.targets st2.i _ (by omega) h5b
  simp only [bulk_request, h1, q1, q4]

theorem bulk_walk_append (junk : Nat → Option String) (now : Int) (pre suf : lamps_t)
    (st : bulk_st) :
    bulk_walk junk now (pre ++ suf) st =
      match bulk_walk junk now pre st with
      | none => none
      | some (l1, s1) =>
        match bulk_walk junk now suf s1 with
        | none => none
        | some (l2, s2) => some (l1 ++ l2, s2) := by
  induction pre generalizing st with
  | nil =>
    simp only [List.nil_append, bulk_walk]
    cases bulk_walk junk now suf st with
    | none => rfl
    | some p => rfl
  | cons np rest ih =>
    have hc : (np :: rest) ++ suf = np :: (rest ++ suf) := rfl
    rw [hc]
    by_cases ho : too_old now np = true
    · simp only [bulk_walk, ho, if_true]
      exact ih st
    · simp only [Bool.not_eq_true] at ho
      by_cases hs : np.selected = true
      · simp only [bulk_walk, ho, hs, if_true, Bool.false_eq_true, if_false]
        cases push_target junk np st with
        | none => rfl
        | some st1 =>
          simp only []
          rw [ih st1]
          cases bulk_walk junk now rest st1 with
          | none => rfl
          | some p =>
            simp only []
            cases bulk_walk junk now suf p.2 with
            | none => rfl
            | some q => rfl
      · simp only [Bool.not_eq_true] at hs
        simp only [bulk_walk, ho, hs, Bool.false_eq_true, if_false]
        rw [ih st]
        cases bulk_walk junk now rest st with
        | none => rfl
        | some p =>
          simp only []
          cases bulk_walk junk now suf p.2 with
          | none => rfl
          | some q => rfl

theorem toggle_walk_set (l : lamps_t) (i : Int) (n : Nat) (np : lamp_t)
    (h : l[n]? = some np) :
    toggle_walk (i + (n : Int)) l i = (l.set n { np with selected := !np.selected }, true) := by
  induction l generalizing i n with
  | nil => simp at h
  | cons hd rest ih =>
    cases n with
    | zero =>
      simp only [List.getElem?_cons_zero, Option.some.injEq] at h
      simp [toggle_walk, h]
    | succ j =>
      simp only [List.getElem?_cons_succ] at h
      have hne : ¬ (i + ((j + 1 : Nat) : Int) = i) := by omega
      have e : i + ((j + 1 : Nat) : Int) = i + 1 + (j : Int) := by push_cast; ring
      simp only [toggle_walk, hne, if_false, List.set_cons_succ]
      rw [e, ih (i + 1) j h]

theorem toggle_walk_nodup (c : Int) (l : lamps_t) (i : Int)
    (h : (l.map (fun np => np.addr)).Nodup) :
    ((toggle_walk c l i).1.map (fun np => np.addr)).Nodup := by
  have e := congrArg (List.map (fun p : String × String × Int => p.1)) (toggle_walk_addrs c l i)
  simp only [List.map_map, Function.comp_def] at e
  rw [e]
  exact h

theorem filter_nodup (p : lamp_t → Bool) (l : lamps_t)
    (h : (l.map (fun np => np.addr)).Nodup) :
    ((l.filter p).map (fun np => np.addr)).Nodup :=
  List.Nodup.sublist ((List.filter_sublist l).map _) h

theorem manage_msg_nodup (rd : Option msg_t) (send_ok : Bool) (l : lamps_t)
    (h : (l.map (fun np => np.addr)).Nodup) :
    ((manage_msg rd send_ok l).1.map (fun np => np.addr)).Nodup := by
  rcases manage_msg_lamps rd send_ok l with e | ⟨m, _, e⟩
  · rw [e]
    exact h
  · rw [e]
    exact lamp_seen_nodup m l h

theorem select_lamps_nodup (now : Int) (choice : Option Int) (l : lamps_t)
    (h : (l.map (fun np => np.addr)).Nodup) :
    ((select_lamps now choice l).1.map (fun np => np.addr)).Nodup := by
  have hk := filter_nodup (fun np => decide (np.timeout = 0 ∨ now ≤ np.timeout)) l h
  unfold select_lamps
  simp only [list_walk_lamps]
  split_ifs
  · cases choice with
    | none => exact hk
    | some c => exact toggle_walk_nodup c _ 0 hk
  · exact hk

theorem cli_menu_nodup (junk : Nat → Option String) (now : Int) (busv_ok : Bool)
    (inp : stdin_t) (l : lamps_t) (h : (l.map (fun np => np.addr)).Nodup) :
    ∃ r, cli_menu junk now busv_ok inp l = some r ∧
      (r.lamps.map (fun np => np.addr)).Nodup := by
  have hk := filter_nodup (fun np => decide (np.timeout = 0 ∨ now ≤ np.timeout)) l h
  unfold cli_menu
  cases inp.menu with
  | none => exact ⟨_, rfl, h⟩
  | some menu =>
    simp only [send_action, bulk_request_spec]
    split_ifs
    all_goals first
      | exact ⟨_, rfl, select_lamps_nodup now inp.choice l h⟩
      | exact ⟨_, rfl, hk⟩
      | exact ⟨_, rfl, h⟩

theorem apply_nodup (op : op_t) (l : lamps_t) (h : (l.map (fun np => np.addr)).Nodup) :
    ∃ l1, op.apply l = some l1 ∧ (l1.map (fun np => np.addr)).Nodup := by
  cases op with
  | bus rd send_ok => exact ⟨_, rfl, manage_msg_nodup rd send_ok l h⟩
  | user junk now busv_ok inp =>
    obtain ⟨r, e, hr⟩ := cli_menu_nodup junk now busv_ok inp l h
    exact ⟨r.lamps, by simp only [op_t.apply, e], hr⟩
  | listing now =>
    refine ⟨_, rfl, ?_⟩
    rw [list_walk_lamps]
    exact filter_nodup _ l h
  | toggle choice => exact ⟨_, rfl, toggle_walk_nodup choice l 0 h⟩
  | bulk junk now busv_ok action =>
    exact ⟨l.filter (fun np => decide (np.timeout = 0 ∨ now ≤ np.timeout)),
      by simp only [op_t.apply, bulk_request_spec], filter_nodup _ l h⟩

theorem run_nodup (ops : List op_t) (l : lamps_t) (h : (l.map (fun np => np.addr)).Nodup) :
    ∃ l1, run ops l = some l1 ∧ (l1.map (fun np => np.addr)).Nodup := by
  induction ops generalizing l with
  | nil => exact ⟨l, rfl, h⟩
  | cons op ops ih =>
    obtain ⟨l1, e1, h1⟩ := apply_nodup op l h
    obtain ⟨l2, e2, h2⟩ := ih l1 h1
    exact ⟨l2, by simp only [run, e1, e2], h2⟩

theorem run_append (ops1 ops2 : List op_t) (l : lamps_t) :
    run (ops1 ++ ops2) l =
      match run ops1 l with
      | none => none
      | some l1 => run ops2 l1 := by
  induction ops1 generalizing l with
  | nil => rfl
  | cons op ops ih =>
    simp only [List.cons_append, run]
    cases op.apply l with
    | none => rfl
    | some l1 => exact ih l1

theorem seen_walk_all (m : msg_t) (l : lamps_t) (h : (l.map (fun np => np.addr)).Nodup)
    (np : lamp_t) (hm : np ∈ (seen_walk m l).1) (ha : np.addr = m.source) :
    np.timeout = (if m.msgType = "notify" ∧ m.action = "alive" then m.aliveTimeout else 0) := by
  induction l with
  | nil => simp [seen_walk] at hm
  | cons hd rest ih =>
    simp only [List.map_cons, List.nodup_cons] at h
    by_cases hh : hd.addr = m.source
    · have hrest : np ∉ rest := by
        intro hin
        exact h.1 (List.mem_map.2 ⟨np, hin, by rw [ha, hh]⟩)
      by_cases hn : is_alive_notify m = true
      · have hn2 := (is_alive_notify_iff m).1 hn
        simp only [seen_walk, hh, hn, if_true, List.mem_cons, hrest, or_false] at hm
        simp [hm, hn2]
      · have hn2 : ¬ (m.msgType = "notify" ∧ m.action = "alive") :=
          fun e => hn ((is_alive_notify_iff m).2 e)
        simp only [Bool.not_eq_true] at hn
        simp only [seen_walk, hh, hn, if_true, Bool.false_eq_true, if_false, List.mem_cons,
          hrest, or_false] at hm
        simp [hm, hn2]
    · simp only [seen_walk, hh, if_false, List.mem_cons] at hm
      rcases hm with e | hin
      · exact absurd (e ▸ ha) hh
      · exact ih h.2 hin

theorem lamp_seen_all (m : msg_t) (l : lamps_t) (h : (l.map (fun np => np.addr)).Nodup)
    (np : lamp_t) (hm : np ∈ lamp_seen m l) (ha : np.addr = m.source) :
    np.timeout = (if m.msgType = "notify" ∧ m.action = "alive" then m.aliveTimeout else 0) := by
  by_cases hf : (seen_walk m l).2 = true
  · simp only [lamp_seen, hf, Bool.not_true, Bool.false_eq_true, if_false] at hm
    exact seen_walk_all m l h np hm ha
  · simp only [Bool.not_eq_true] at hf
    simp only [lamp_seen, hf, Bool.not_false, if_true, List.mem_cons] at hm
    rcases hm with e | hin
    · by_cases hn : is_alive_notify m = true
      · have hn2 := (is_alive_notify_iff m).1 hn
        simp [e, hn, hn2]
      · have hn2 : ¬ (m.msgType = "notify" ∧ m.action = "alive") :=
          fun e => hn ((is_alive_notify_iff m).2 e)
        simp only [Bool.not_eq_true] at hn
        simp [e, hn, hn2]
    · exact seen_walk_all m l h np hin ha

theorem find_map_some_mem (l : lamps_t) (a : String) (d : Int)
    (h : (l.find? (fun np => decide (np.addr = a))).map (fun np => np.timeout) = some d) :
    ∃ np ∈ l, np.addr = a := by
  cases hf : l.find? (fun np => decide (np.addr = a)) with
  | none => simp [hf] at h
  | some np =>
    refine ⟨np, List.mem_of_find?_eq_some hf, ?_⟩
    simpa using List.find?_some hf

/-- Menu option 1 when the listing walk leaves at least one record and the
operator types a number: the toggle walk runs on the list the listing walk
left. -/
theorem select_lamps_some (now : Int) (c : Int) (l : lamps_t)
    (h : l.filter (fun np => decide (np.timeout = 0 ∨ now ≤ np.timeout)) ≠ []) :
    select_lamps now (some c) l =
      ((toggle_walk c (l.filter (fun np => decide (np.timeout = 0 ∨ now ≤ np.timeout))) 0).1,
        out_t.detected_lamps :: (list_walk now l 0).2.1 ++ out_t.toggle_which ::
          (if !(toggle_walk c
              (l.filter (fun np => decide (np.timeout = 0 ∨ now ≤ np.timeout))) 0).2
            then [out_t.cant_find] else [])) := by
  have hc : (list_walk now l 0).2.2 ≠ 0 := by
    rw [list_walk_count, list_walk_lamps]
    have : 0 < (l.filter (fun np => decide (np.timeout = 0 ∨ now ≤ np.timeout))).length :=
      List.length_pos.2 h
    omega
  simp only [select_lamps, hc, ne_eq, not_false_eq_true, if_true, list_walk_lamps]

/-- Menu option 1 when the listing walk leaves no record: no prompt, no
toggle walk. -/
theorem select_lamps_none (now : Int) (choice : Option Int) (l : lamps_t)
    (h : l.filter (fun np => decide (np.timeout = 0 ∨ now ≤ np.timeout)) = []) :
    select_lamps now choice l = ([], out_t.detected_lamps :: (list_walk now l 0).2.1) := by
  have hc : (list_walk now l 0).2.2 = 0 := by
    rw [list_walk_count, list_walk_lamps, h]
    rfl
  simp only [select_lamps, hc, ne_eq, not_true_eq_false, if_false, list_walk_lamps, h]

theorem cant_find_mem (now : Int) (l : lamps_t) (yes : Bool) :
    out_t.cant_find ∈ (out_t.detected_lamps :: (list_walk now l 0).2.1 ++ out_t.toggle_which ::
        (if !yes then [out_t.cant_find] else [])) ++ [out_t.menu_text] ↔ yes = false := by
  have hl : out_t.cant_find ∉ (list_walk now l 0).2.1 := by
    intro hin
    obtain ⟨k, mark, a, ty, t, e⟩ := list_walk_only_lines now l 0 _ hin
    cases e
  cases yes <;> simp [hl]

theorem cli_menu_one (junk : Nat → Option String) (now : Int) (busv_ok : Bool)
    (choice : Option Int) (l : lamps_t) :
    cli_menu junk now busv_ok { menu := some 1, choice := choice } l =
      some { lamps := (select_lamps now choice l).1
             out := (select_lamps now choice l).2 ++ [out_t.menu_text]
             exited := false } := by
  simp only [cli_menu, if_true]

theorem scanf_d_of_int (n : Int) (hlo : -2147483648 ≤ n) (hhi : n ≤ 2147483647) :
    scanf_d n = n := by
  unfold scanf_d
  have h1 : ¬ (n < -9223372036854775808) := by omega
  have h2 : ¬ (9223372036854775807 < n) := by omega
  rw [if_neg h1, if_neg h2]
  omega

/-- Menu option 1 in terms of the value `c` stored in `choice`, when the
listing walk leaves at least one record. -/
theorem toggle_stored_choice (junk : Nat → Option String) (now : Int) (busv_ok : Bool)
    (c : Int) (lamps : lamps_t)
    (hshown : lamps.filter (fun np => decide (np.timeout = 0 ∨ now ≤ np.timeout)) ≠ []) :
    ∃ r, cli_menu junk now busv_ok { menu := some 1, choice := some c } lamps = some r ∧
      out_t.toggle_which ∈ r.out ∧
      (out_t.cant_find ∈ r.out ↔
        c < 0 ∨
          ((lamps.filter (fun np => decide (np.timeout = 0 ∨ now ≤ np.timeout))).length : Int)
            ≤ c) ∧
      (out_t.cant_find ∈ r.out →
        r.lamps = lamps.filter (fun np => decide (np.timeout = 0 ∨ now ≤ np.timeout))) ∧
      (out_t.cant_find ∉ r.out →
        ∃ (n : Nat) (np : lamp_t), (n : Int) = c ∧
          (lamps.filter (fun np => decide (np.timeout = 0 ∨ now ≤ np.timeout)))[n]? = some np ∧
          r.lamps = (lamps.filter (fun np => decide (np.timeout = 0 ∨ now ≤ np.timeout))).set n
            { np with selected := !np.selected }) := by
  refine ⟨_, cli_menu_one junk now busv_ok (some c) lamps, ?_, ?_, ?_, ?_⟩
  · simp [select_lamps_some now c lamps hshown]
  · simp only [select_lamps_some now c lamps hshown, cant_find_mem]
    have hy := toggle_walk_yes c
      (lamps.filter (fun np => decide (np.timeout = 0 ∨ now ≤ np.timeout))) 0
    cases hv : (toggle_walk c
      (lamps.filter (fun np => decide (np.timeout = 0 ∨ now ≤ np.timeout))) 0).2 with
    | true =>
      have := hy.1 hv
      simp only [Bool.true_eq_false, false_iff]
      omega
    | false =>
      have hno : ¬ (0 ≤ c ∧ c < 0 + ((lamps.filter
          (fun np => decide (np.timeout = 0 ∨ now ≤ np.timeout))).length : Int)) := by
        intro h
        rw [hy.2 h] at hv
        exact Bool.noConfusion hv
      simp only [true_iff]
      omega
  · simp only [select_lamps_some now c lamps hshown, cant_find_mem]
    intro hv
    exact toggle_walk_no c _ 0 hv
  · simp only [select_lamps_some now c lamps hshown, cant_find_mem, Bool.not_eq_false]
    intro hv
    have hy := (toggle_walk_yes c
      (lamps.filter (fun np => decide (np.timeout = 0 ∨ now ≤ np.timeout))) 0).1 hv
    have hn : c.toNat <
        (lamps.filter (fun np => decide (np.timeout = 0 ∨ now ≤ np.timeout))).length := by
      omega
    have hc : (0 : Int) + (c.toNat : Int) = c := by omega
    refine ⟨c.toNat, _, by omega, List.getElem?_eq_getElem hn, ?_⟩
    have := toggle_walk_set _ 0 c.toNat _ (List.getElem?_eq_getElem hn)
    rw [hc] at this
    rw [this]

/-! ## Properties of the specification -/

/-- C1: `bulk_request` sends exactly one request, also when nothing is
selected; its targets are the addresses of the records that are selected and
not expired at `now` (`timeout == 0` or `now <= timeout`), once each, in the
order of the list; the list left behind holds the records not expired, and
the returned flag is that of the transport. -/
theorem bulk_request_targets (junk : Nat → Option String) (now : Int) (busv_ok : Bool)
    (lamps : lamps_t) (action : String) :
    bulk_request junk now busv_ok lamps action =
      some (lamps.filter (fun np => decide (np.timeout = 0 ∨ now ≤ np.timeout)),
        [out_t.write_busv "request" action
          ((lamps.filter
            (fun np => np.selected && decide (np.timeout = 0 ∨ now ≤ np.timeout))).map
            (fun np => np.addr))],
        busv_ok) :=
  bulk_request_spec junk now busv_ok lamps action

/-- C2: the listing walk of menu option 1 and the walk of `bulk_request` both
leave the list they were given without the records whose `timeout` is not 0
and is less than `now`: the other records stay, unchanged and in their
order. -/
theorem walks_prune_expired (now : Int) (lamps : lamps_t) :
    (list_walk now lamps 0).1 =
        lamps.filter (fun np => decide (¬ (np.timeout ≠ 0 ∧ np.timeout < now))) ∧
      (∀ (junk : Nat → Option String) (busv_ok : Bool),
        (cli_menu junk now busv_ok { menu := some 1, choice := none } lamps).map
            (fun r => r.lamps) =
          some (lamps.filter (fun np => decide (¬ (np.timeout ≠ 0 ∧ np.timeout < now))))) ∧
      (∀ (junk : Nat → Option String) (busv_ok : Bool) (action : String),
        (bulk_request junk now busv_ok lamps action).map (fun r => r.1) =
          some (lamps.filter (fun np => decide (¬ (np.timeout ≠ 0 ∧ np.timeout < now))))) := by
  have e : (fun np : lamp_t => decide (¬ (np.timeout ≠ 0 ∧ np.timeout < now))) =
      (fun np : lamp_t => decide (np.timeout = 0 ∨ now ≤ np.timeout)) := by
    funext np
    congr 1
    apply propext
    constructor <;> intro h <;> omega
  rw [e]
  refine ⟨list_walk_lamps now lamps 0, ?_, ?_⟩
  · intro junk busv_ok
    simp only [cli_menu, select_lamps, list_walk_lamps, if_true, Option.map_some']
    split_ifs <;> rfl
  · intro junk busv_ok action
    rw [bulk_request_spec]
    rfl

/-- C3: from the empty list, every sequence of operations (a received
message, a menu command, the listing walk, the toggle walk, `bulk_request`)
runs to its end and leaves a list in which no two records have the same
`addr`. -/
theorem one_record_per_addr (ops : List op_t) :
    ∃ l, run ops [] = some l ∧ (l.map (fun np => np.addr)).Nodup :=
  run_nodup ops [] List.nodup_nil

/-- C4: when the list already holds a record for the source of a received
message, `manage_msg` keeps the length and order of the list, every record
keeps its `addr`, `type` and `selected`, and every record of another address
is unchanged, whatever the message type, device type and action: only the
`timeout` of a record of that source can differ. In particular a selected
record stays selected after a message that is not an alive notification. -/
theorem known_lamp_frame (m : msg_t) (send_ok : Bool) (lamps : lamps_t)
    (hknown : m.source ∈ lamps.map (fun np => np.addr)) :
    (manage_msg (some m) send_ok lamps).1.map (fun np => (np.addr, np.type, np.selected)) =
        lamps.map (fun np => (np.addr, np.type, np.selected)) ∧
      (manage_msg (some m) send_ok lamps).1.length = lamps.length ∧
      ∀ (k : Nat) (np : lamp_t), lamps[k]? = some np → np.addr ≠ m.source →
        (manage_msg (some m) send_ok lamps).1[k]? = some np := by
  rcases manage_msg_lamps (some m) send_ok lamps with e | ⟨m1, hm, e⟩
  · rw [e]
    exact ⟨rfl, rfl, fun k np hk _ => hk⟩
  · cases hm
    have hf : (seen_walk m lamps).2 = true := (seen_walk_found m lamps).2 hknown
    have e2 : (manage_msg (some m) send_ok lamps).1 = (seen_walk m lamps).1 := by
      rw [e]
      simp only [lamp_seen, hf, Bool.not_true, Bool.false_eq_true, if_false]
    rw [e2]
    refine ⟨seen_walk_frame m lamps, ?_, fun k np hk hne => seen_walk_other m lamps k np hk hne⟩
    have := congrArg List.length (seen_walk_frame m lamps)
    simpa using this

/-- C4 at a concrete input: lamp `A` is selected with deadline 120, and an
`attributesChange` notification of `A` arrives, carrying another device type:
`A` stays selected with its type, `B` is untouched, and the deadline of `A`
is now 0. -/
theorem known_lamp_frame_witness :
    "A" ∈ ([{ addr := "B", type := "lamp.basic", selected := false, timeout := 7 },
            { addr := "A", type := "lamp.basic", selected := true, timeout := 120 }] :
              lamps_t).map (fun np => np.addr) ∧
      (manage_msg
        (some { source := "A", msgType := "notify", devType := "lamp.dimmer",
                action := "attributesChange", targets_match := false,
                isAliveDevType_match := false, aliveTimeout := 0 })
        true
        [{ addr := "B", type := "lamp.basic", selected := false, timeout := 7 },
         { addr := "A", type := "lamp.basic", selected := true, timeout := 120 }]).1.map
        (fun np => (np.addr, np.type, np.selected)) =
      [("B", "lamp.basic", false), ("A", "lamp.basic", true)] ∧
      (manage_msg
        (some { source := "A", msgType := "notify", devType := "lamp.dimmer",
                action := "attributesChange", targets_match := false,
                isAliveDevType_match := false, aliveTimeout := 0 })
        true
        [{ addr := "B", type := "lamp.basic", selected := false, timeout := 7 },
         { addr := "A", type := "lamp.basic", selected := true, timeout := 120 }]).1 =
      [{ addr := "B", type := "lamp.basic", selected := false, timeout := 7 },
       { addr := "A", type := "lamp.basic", selected := true, timeout := 0 }] :=
  ⟨by decide,
   (known_lamp_frame
    { source := "A", msgType := "notify", devType := "lamp.dimmer",
      action := "attributesChange", targets_match := false,
      isAliveDevType_match := false, aliveTimeout := 0 }
    true
    [{ addr := "B", type := "lamp.basic", selected := false, timeout := 7 },
     { addr := "A", type := "lamp.basic", selected := true, timeout := 120 }]
    (by decide)).1,
   by decide⟩

/-- C5: after `manage_msg` has taken the lamp branch for a message, the
record of its source has the deadline of that message: the value of
`xAAL_read_aliveTimeout` when `msgType` is `notify` and `action` is `alive`,
and 0 otherwise, whatever the record held before. That is so for the first
record of that address in any list, for every record of that address in a
list without duplicate addresses, and after any earlier sequence of
operations: the last message decides. -/
theorem lamp_deadline_overwritten (m : msg_t) (send_ok : Bool) (lamps : lamps_t)
    (hreq : ¬ (m.msgType = "request" ∧ m.targets_match = true))
    (hlamp : lamp_talking m = true) :
    (((manage_msg (some m) send_ok lamps).1.find?
          (fun np => decide (np.addr = m.source))).map (fun np => np.timeout) =
        some (if m.msgType = "notify" ∧ m.action = "alive" then m.aliveTimeout else 0)) ∧
      ((lamps.map (fun np => np.addr)).Nodup →
        ∀ np ∈ (manage_msg (some m) send_ok lamps).1, np.addr = m.source →
          np.timeout =
            (if m.msgType = "notify" ∧ m.action = "alive" then m.aliveTimeout else 0)) ∧
      (∀ ops : List op_t, ∃ l, run (ops ++ [op_t.bus (some m) send_ok]) [] = some l ∧
        (∃ np ∈ l, np.addr = m.source) ∧
        ∀ np ∈ l, np.addr = m.source →
          np.timeout =
            (if m.msgType = "notify" ∧ m.action = "alive" then m.aliveTimeout else 0)) := by
  have e : ∀ l, (manage_msg (some m) send_ok l).1 = lamp_seen m l := fun l => by
    rw [manage_msg_lamp m send_ok l hreq hlamp]
  refine ⟨?_, ?_, ?_⟩
  · rw [e]
    exact lamp_seen_find m lamps
  · intro hnd np hm ha
    rw [e] at hm
    exact lamp_seen_all m lamps hnd np hm ha
  · intro ops
    obtain ⟨l1, r1, hnd⟩ := run_nodup ops [] List.nodup_nil
    refine ⟨lamp_seen m l1, ?_, ?_, ?_⟩
    · rw [run_append, r1]
      simp only [run, op_t.apply, e]
    · exact find_map_some_mem _ _ _ (lamp_seen_find m l1)
    · intro np hm ha
      exact lamp_seen_all m l1 hnd np hm ha

/-- C5 at a concrete input: lamp `A` has the deadline 120 and sends an
`attributesChange` notification: its deadline is now 0, never expires. -/
theorem lamp_deadline_overwritten_witness :
    ((manage_msg
        (some { source := "A", msgType := "notify", devType := "lamp.basic",
                action := "attributesChange", targets_match := false,
                isAliveDevType_match := false, aliveTimeout := 99 })
        true
        [{ addr := "A", type := "lamp.basic", selected := true, timeout := 120 }]).1.find?
          (fun np => decide (np.addr = "A"))).map (fun np => np.timeout) = some 0 :=
  (lamp_deadline_overwritten
    { source := "A", msgType := "notify", devType := "lamp.basic",
      action := "attributesChange", targets_match := false,
      isAliveDevType_match := false, aliveTimeout := 99 }
    true
    [{ addr := "A", type := "lamp.basic", selected := true, timeout := 120 }]
    (by decide) (by decide)).1

/-- C6, as stated, fails for a number that does not fit an `int`. The list is
`B` (deadline 1) and `A` (deadline 120), menu option 1 is entered at time 2:
the listing walk leaves `A` alone, one record. The operator types
4294967296, which is not negative and is at least 1; `scanf` stores 0 in
`choice`, so the toggle walk negates `selected` of `A` and the line "can't
find it" is not printed. -/
theorem toggle_typed_beyond_int :
    scanf_d 4294967296 = 0 ∧
      cli_menu (fun _ => none) 2 true { menu := some 1, choice := some (scanf_d 4294967296) }
          [{ addr := "B", type := "lamp.basic", selected := false, timeout := 1 },
           { addr := "A", type := "lamp.basic", selected := false, timeout := 120 }] =
        some { lamps := [{ addr := "A", type := "lamp.basic", selected := true, timeout := 120 }]
               out := [out_t.detected_lamps, out_t.lamp_line 0 ' ' "A" "lamp.basic" 120,
                       out_t.toggle_which, out_t.menu_text]
               exited := false } ∧
      ¬ ((4294967296 : Int) < 0) ∧
      ((([{ addr := "B", type := "lamp.basic", selected := false, timeout := 1 },
          { addr := "A", type := "lamp.basic", selected := false, timeout := 120 }] :
            lamps_t).filter
          (fun np => decide (np.timeout = 0 ∨ (2 : Int) ≤ np.timeout))).length : Int)
        ≤ 4294967296 := by
  decide

/-- C6, amended: in menu option 1, when the listing walk leaves at least one
record (so that the prompt is shown) and the operator types a number `c`
that fits an `int` (from -2147483648 to 2147483647), the line "can't find
it" is printed if and only if `c` is negative or at least the number of
records the listing walk left; when it is printed the list is the one the
listing walk left, and when it is not, the list is that one with the
`selected` flag of the record at position `c` negated and nothing else
changed. -/
theorem toggle_not_found_iff_int (junk : Nat → Option String) (now : Int) (busv_ok : Bool)
    (c : Int) (lamps : lamps_t)
    (hshown : lamps.filter (fun np => decide (np.timeout = 0 ∨ now ≤ np.timeout)) ≠ [])
    (hlo : -2147483648 ≤ c) (hhi : c ≤ 2147483647) :
    ∃ r, cli_menu junk now busv_ok { menu := some 1, choice := some (scanf_d c) } lamps =
        some r ∧
      out_t.toggle_which ∈ r.out ∧
      (out_t.cant_find ∈ r.out ↔
        c < 0 ∨
          ((lamps.filter (fun np => decide (np.timeout = 0 ∨ now ≤ np.timeout))).length : Int)
            ≤ c) ∧
      (out_t.cant_find ∈ r.out →
        r.lamps = lamps.filter (fun np => decide (np.timeout = 0 ∨ now ≤ np.timeout))) ∧
      (out_t.cant_find ∉ r.out →
        ∃ (n : Nat) (np : lamp_t), (n : Int) = c ∧
          (lamps.filter (fun np => decide (np.timeout = 0 ∨ now ≤ np.timeout)))[n]? = some np ∧
          r.lamps = (lamps.filter (fun np => decide (np.timeout = 0 ∨ now ≤ np.timeout))).set n
            { np with selected := !np.selected }) := by
  rw [scanf_d_of_int c hlo hhi]
  exact toggle_stored_choice junk now busv_ok c lamps hshown

/-- C6 at a concrete input: two lamps, of which the listing walk at time 2
keeps one, and the typed number 5, which fits an `int`. -/
theorem toggle_not_found_iff_int_witness :
    ∃ r, cli_menu (fun _ => none) 2 true { menu := some 1, choice := some (scanf_d 5) }
        [{ addr := "B", type := "lamp.basic", selected := false, timeout := 1 },
         { addr := "A", type := "lamp.basic", selected := false, timeout := 120 }] = some r ∧
      out_t.toggle_which ∈ r.out ∧
      (out_t.cant_find ∈ r.out ↔
        (5 : Int) < 0 ∨
          (([{ addr := "B", type := "lamp.basic", selected := false, timeout := 1 },
             { addr := "A", type := "lamp.basic", selected := false, timeout := 120 }] :
              lamps_t).filter
            (fun np => decide (np.timeout = 0 ∨ (2 : Int) ≤ np.timeout))).length ≤ (5 : Int)) :=
  have h := toggle_not_found_iff_int (fun _ => none) 2 true 5
    [{ addr := "B", type := "lamp.basic", selected := false, timeout := 1 },
     { addr := "A", type := "lamp.basic", selected := false, timeout := 120 }]
    (by decide) (by decide) (by decide)
  match h with
  | ⟨r, h1, h2, h3, _⟩ => ⟨r, h1, h2, h3⟩

/-- C7: when the listing walk of menu option 1 has printed a line with index
`i`, the toggle walk of the same call with the number `i` negates the
`selected` flag of the record that line shows (same `addr`, `type`,
`timeout` and mark), at position `i` of the list the listing walk left, and
changes no other record. -/
theorem listed_index_toggles_same_record (junk : Nat → Option String) (now : Int)
    (busv_ok : Bool) (lamps : lamps_t) (i : Int) (mark : Char) (a ty : String) (t : Int)
    (hline : out_t.lamp_line i mark a ty t ∈ (list_walk now lamps 0).2.1) :
    ∃ r, cli_menu junk now busv_ok { menu := some 1, choice := some i } lamps = some r ∧
      out_t.lamp_line i mark a ty t ∈ r.out ∧
      out_t.cant_find ∉ r.out ∧
      ∃ (n : Nat) (np : lamp_t), (n : Int) = i ∧
        (lamps.filter (fun np => decide (np.timeout = 0 ∨ now ≤ np.timeout)))[n]? = some np ∧
        np.addr = a ∧ np.type = ty ∧ np.timeout = t ∧
        mark = (if np.selected then '*' else ' ') ∧
        r.lamps = (lamps.filter (fun np => decide (np.timeout = 0 ∨ now ≤ np.timeout))).set n
          { np with selected := !np.selected } := by
  obtain ⟨n, hk, np, hnp, h1, h2, h3, h4⟩ := list_walk_line now lamps 0 i mark a ty t hline
  rw [list_walk_lamps] at hnp
  have hshown : lamps.filter (fun np => decide (np.timeout = 0 ∨ now ≤ np.timeout)) ≠ [] := by
    intro e
    rw [e] at hnp
    simp at hnp
  have hw := toggle_walk_set _ 0 n np hnp
  rw [← hk] at hw
  refine ⟨_, cli_menu_one junk now busv_ok (some i) lamps, ?_, ?_, n, np, by omega, hnp,
    h1, h2, h3, h4, ?_⟩
  · simp [select_lamps_some now i lamps hshown, hline]
  · simp only [select_lamps_some now i lamps hshown, cant_find_mem, hw]
    simp
  · simp only [select_lamps_some now i lamps hshown, hw]

/-- C7 at a concrete input: the listing walk at time 2 prints lamp `A` with
index 0, and the answer is 0. -/
theorem listed_index_toggles_same_record_witness :
    ∃ r, cli_menu (fun _ => none) 2 true { menu := some 1, choice := some 0 }
        [{ addr := "B", type := "lamp.basic", selected := false, timeout := 1 },
         { addr := "A", type := "lamp.basic", selected := false, timeout := 120 }] = some r ∧
      out_t.lamp_line 0 ' ' "A" "lamp.basic" 120 ∈ r.out ∧
      out_t.cant_find ∉ r.out :=
  have h := listed_index_toggles_same_record (fun _ => none) 2 true
    [{ addr := "B", type := "lamp.basic", selected := false, timeout := 1 },
     { addr := "A", type := "lamp.basic", selected := false, timeout := 120 }]
    0 ' ' "A" "lamp.basic" 120 (by decide)
  match h with
  | ⟨r, h1, h2, h3, _⟩ => ⟨r, h1, h2, h3⟩

/-- C8, as stated, fails. Menu option 1 is entered at time 3 with the records
`A` (deadline 5) and `B` (never expires): the listing walk keeps both and
shows `A` with index 0. The operator answers 0 at time 10, when `A` is past
its deadline. The toggle walk reads no clock and tests no `timeout`: it
negates `selected` of `A`, the record at position 0 of the list as the
listing walk left it, and not of `B`, the record at position 0 of the list
pruned at time 10. -/
theorem toggle_walk_flips_expired :
    (cli_menu (fun _ => none) 3 true { menu := some 1, choice := some 0 }
        [{ addr := "A", type := "lamp.basic", selected := false, timeout := 5 },
         { addr := "B", type := "lamp.basic", selected := false, timeout := 0 }]).map
        (fun r => r.lamps) =
      some [{ addr := "A", type := "lamp.basic", selected := true, timeout := 5 },
            { addr := "B", type := "lamp.basic", selected := false, timeout := 0 }] ∧
      (toggle_walk 0
        [{ addr := "A", type := "lamp.basic", selected := false, timeout := 5 },
         { addr := "B", type := "lamp.basic", selected := false, timeout := 0 }] 0).1 =
        [{ addr := "A", type := "lamp.basic", selected := true, timeout := 5 },
         { addr := "B", type := "lamp.basic", selected := false, timeout := 0 }] ∧
      too_old 10 { addr := "A", type := "lamp.basic", selected := false, timeout := 5 } = true ∧
      (toggle_walk 0
        (([{ addr := "A", type := "lamp.basic", selected := false, timeout := 5 },
           { addr := "B", type := "lamp.basic", selected := false, timeout := 0 }] :
            lamps_t).filter (fun np => !too_old 10 np)) 0).1 =
        [{ addr := "B", type := "lamp.basic", selected := true, timeout := 0 }] := by
  decide

/-- C8, amended: the toggle of menu option 1 resolves the number `c` against
the list as the listing walk of the same call left it, pruned at the clock
value `now` of that listing walk: the result is that list with the `selected`
flag of the record at position `c` negated, if there is one. No record that
the listing walk removed is counted or flipped; the toggle walk itself takes
no clock value. -/
theorem toggle_resolves_against_listing (junk : Nat → Option String) (now : Int)
    (busv_ok : Bool) (c : Int) (lamps : lamps_t) :
    ∃ r, cli_menu junk now busv_ok { menu := some 1, choice := some c } lamps = some r ∧
      r.lamps =
        (toggle_walk c
          (lamps.filter (fun np => decide (¬ (np.timeout ≠ 0 ∧ np.timeout < now)))) 0).1 ∧
      r.lamps.length =
        (lamps.filter (fun np => decide (¬ (np.timeout ≠ 0 ∧ np.timeout < now)))).length ∧
      ∀ (n : Nat) (np : lamp_t),
        (lamps.filter (fun np => decide (¬ (np.timeout ≠ 0 ∧ np.timeout < now))))[n]? =
            some np →
          r.lamps[n]? =
            some (if c = (n : Int) then { np with selected := !np.selected } else np) := by
  have e : (fun np : lamp_t => decide (¬ (np.timeout ≠ 0 ∧ np.timeout < now))) =
      (fun np : lamp_t => decide (np.timeout = 0 ∨ now ≤ np.timeout)) := by
    funext np
    congr 1
    apply propext
    constructor <;> intro h <;> omega
  rw [e]
  have hl : (select_lamps now (some c) lamps).1 =
      (toggle_walk c
        (lamps.filter (fun np => decide (np.timeout = 0 ∨ now ≤ np.timeout))) 0).1 := by
    by_cases hk : lamps.filter (fun np => decide (np.timeout = 0 ∨ now ≤ np.timeout)) = []
    · rw [select_lamps_none now (some c) lamps hk, hk]
      rfl
    · rw [select_lamps_some now c lamps hk]
  refine ⟨_, cli_menu_one junk now busv_ok (some c) lamps, hl, ?_, ?_⟩
  · show (select_lamps now (some c) lamps).1.length = _
    rw [hl, toggle_walk_length]
  · intro n np hn
    show (select_lamps now (some c) lamps).1[n]? = _
    rw [hl, toggle_walk_get, hn]
    simp only [Int.zero_add, Option.map_some']
    split_ifs <;> rfl

/-- C9: the scenario of the specification. From the empty list, an alive
notification of lamp `A` with deadline 120 and one of lamp `B` with deadline
1; menu option 1 at time 2 with answer 0 prints one lamp line, `A` with index
0, and leaves `A` alone in the list, selected; menu option 3 sends one
request `off` to the targets `["A"]`, as does `bulk_request` itself; menu
option 1 at time 130 prints no lamp line, shows no prompt and leaves the
list empty. -/
theorem spec_scenario (junk : Nat → Option String) (busv_ok : Bool) (choice : Option Int) :
    (manage_msg (some alive_B) true (manage_msg (some alive_A) true []).1).1 =
        [{ addr := "B", type := "lamp.basic", selected := false, timeout := 1 },
         { addr := "A", type := "lamp.basic", selected := false, timeout := 120 }] ∧
      cli_menu junk 2 busv_ok { menu := some 1, choice := some 0 }
          [{ addr := "B", type := "lamp.basic", selected := false, timeout := 1 },
           { addr := "A", type := "lamp.basic", selected := false, timeout := 120 }] =
        some { lamps := [{ addr := "A", type := "lamp.basic", selected := true, timeout := 120 }]
               out := [out_t.detected_lamps, out_t.lamp_line 0 ' ' "A" "lamp.basic" 120,
                       out_t.toggle_which, out_t.menu_text]
               exited := false } ∧
      bulk_request junk 2 busv_ok
          [{ addr := "A", type := "lamp.basic", selected := true, timeout := 120 }] "off" =
        some ([{ addr := "A", type := "lamp.basic", selected := true, timeout := 120 }],
              [out_t.write_busv "request" "off" ["A"]], busv_ok) ∧
      cli_menu junk 2 busv_ok { menu := some 3, choice := choice }
          [{ addr := "A", type := "lamp.basic", selected := true, timeout := 120 }] =
        some { lamps := [{ addr := "A", type := "lamp.basic", selected := true, timeout := 120 }]
               out := [out_t.write_busv "request" "off" ["A"]] ++
                 (if !busv_ok then [out_t.error_log "Could not send 'off' request\n"] else []) ++
                 [out_t.menu_text]
               exited := false } ∧
      cli_menu junk 130 busv_ok { menu := some 1, choice := choice }
          [{ addr := "A", type := "lamp.basic", selected := true, timeout := 120 }] =
        some { lamps := [], out := [out_t.detected_lamps, out_t.menu_text], exited := false } := by
  refine ⟨by decide, ?_, ?_, ?_, ?_⟩
  · rw [cli_menu_one]
    decide
  · rw [bulk_request_spec]
    rfl
  · simp only [cli_menu, send_action, bulk_request_spec]
    rfl
  · rw [cli_menu_one, select_lamps_none 130 choice _ (by decide)]
    rfl

/-- C10: in the target block of `bulk_request`, whatever the list and however
many records are selected. Take the walk at any point, after a part `pre` of
the list and before the rest `suf`: the walk of `pre` ends with locals for
which `i < max`, the block has `max` cells, `max` is the multiple of ten just
above `i`, `i` is the number of addresses collected and the first `i` cells
hold them; the walk of the whole list goes on from these locals and ends too,
so each later write `targets[i++]` is inside the block; and the write of the
terminator `targets[i] = NULL` at these locals is inside the block, which
then holds the collected addresses followed by `NULL`. -/
theorem targets_writes_in_bounds (junk : Nat → Option String) (now : Int)
    (pre suf : lamps_t) :
    ∃ l1 st, bulk_walk junk now pre (bulk_init junk) = some (l1, st) ∧
      st.i < st.max ∧ st.targets.length = st.max ∧ st.max = 10 * (st.i / 10 + 1) ∧
      st.i = (pre.filter
        (fun np => np.selected && decide (np.timeout = 0 ∨ now ≤ np.timeout))).length ∧
      st.targets.take st.i =
        (pre.filter (fun np => np.selected && decide (np.timeout = 0 ∨ now ≤ np.timeout))).map
          (fun np => some np.addr) ∧
      (∃ l2 st2, bulk_walk junk now suf st = some (l2, st2) ∧
        bulk_walk junk now (pre ++ suf) (bulk_init junk) = some (l1 ++ l2, st2) ∧
        st2.i < st2.max ∧ st2.targets.length = st2.max) ∧
      (∃ t, store st.targets st.i none = some t ∧ t.length = st.max ∧
        t.take (st.i + 1) =
          (pre.filter
            (fun np => np.selected && decide (np.timeout = 0 ∨ now ≤ np.timeout))).map
            (fun np => some np.addr) ++ [none] ∧
        read_targets t = some ((pre.filter
          (fun np => np.selected && decide (np.timeout = 0 ∨ now ≤ np.timeout))).map
          (fun np => np.addr))) := by
  obtain ⟨f1, f2, f3⟩ := bulk_init_facts junk
  obtain ⟨st, h1, h2, h3, h4, h5⟩ := bulk_walk_spec junk now pre (bulk_init junk) f1 f2 f3
  have h5a : st.targets.take st.i =
      (pre.filter (fun np => np.selected && decide (np.timeout = 0 ∨ now ≤ np.timeout))).map
        (fun np => some np.addr) := by
    rw [h5]
    simp [bulk_init]
  have h5b : st.targets.take st.i =
      ((pre.filter (fun np => np.selected && decide (np.timeout = 0 ∨ now ≤ np.timeout))).map
        (fun np => np.addr)).map some := by
    rw [h5a]
    simp [List.map_map, Function.comp_def]
  have hcount : st.i = (pre.filter
      (fun np => np.selected && decide (np.timeout = 0 ∨ now ≤ np.timeout))).length := by
    have := congrArg List.length h5a
    simp only [List.length_take, List.length_map] at this
    omega
  obtain ⟨st2, g1, g2, g3, _, _⟩ := bulk_walk_spec junk now suf st h2 h3 h4
  obtain ⟨t, q1, q2, q3, q4⟩ := terminator_spec st.targets st.i _ (by omega) h5b
  refine ⟨_, st, h1, h3, h2, h4, hcount, h5a, ⟨_, st2, g1, ?_, g3, g2⟩, t, q1, ?_, ?_, q4⟩
  · rw [bulk_walk_append, h1]
    simp only [g1]
  · rw [q2, h2]
  · rw [q3]
    simp [List.map_map, Function.comp_def]

end LampCommander
